import Mathlib

/-!
Shallow embedding of the vocals-sdk-go client SDK (package `vocals`),
together with theorems settling the specification claims about it.

Modelling conventions, applied uniformly:
* Go `string` is Lean `String`; Go `int`/`int64` is `Int` (or `Nat` where the
  surrounding code guarantees non-negativity, noted at each definition);
* Go `float32`/`float64` values that the code only stores, compares and
  combines are modelled as exact rationals `ℚ`; where a float32 sample only
  matters through its raw 32-bit representation (`math.Float32bits` /
  `math.Float32frombits`, which are mutually inverse on bit patterns) the
  sample is modelled as its bit pattern, a `Nat` below `2 ^ 32`;
* methods that mutate a struct under a mutex are modelled as pure functions
  from the relevant state to the new state; wall-clock effects (`time.Now`,
  `time.Sleep`), logging and goroutine spawns do not affect the modelled
  state and are dropped, as noted where they occur.
-/

namespace VocalsSDK

/-- Go slice suffix `xs[len(xs)-n:]` guarded by `len(xs) > n`: the last `n`
elements of a list (the whole list when it is no longer than `n`). -/
def takeLast {α : Type} (n : Nat) (xs : List α) : List α :=
  xs.drop (xs.length - n)

/-- Connection states of the websocket client (`types.go`, `ConnectionState`
constants `Disconnected`, `Connecting`, `Connected`, `Reconnecting`,
`ErrorState`). -/
inductive ConnectionState where
  | Disconnected
  | Connecting
  | Connected
  | Reconnecting
  | ErrorState
deriving DecidableEq

/-- One TTS audio segment (`types.go`, `TTSAudioSegment`). `AudioData` is the
base64 payload string; integer fields are Go `int`. -/
structure TTSAudioSegment where
  text : String
  audioData : String
  sampleRate : Int
  segmentID : String
  sentenceNumber : Int
  generationTimeMs : Int
  format : String
  durationSeconds : ℚ
deriving DecidableEq

/-- Playback-queue effect of `AudioProcessor.AddToQueue`
(`audio_processor.go`): scan the queue for an entry with the same
`SegmentID` and `SentenceNumber`; if found, return unchanged (the duplicate
is skipped), otherwise append. The `autoPlayback` kick of `playNextSegment`
is an asynchronous side effect that does not change the queue contents and
is not part of this function's result. -/
def AddToQueue (q : List TTSAudioSegment) (segment : TTSAudioSegment) :
    List TTSAudioSegment :=
  if (q.any fun s =>
      s.segmentID == segment.segmentID &&
        s.sentenceNumber == segment.sentenceNumber) = true then
    q
  else
    q ++ [segment]

/-- One conversation turn (`conversation.go` stores it as
`map[string]string{"role": role, "content": content}`; the two fixed keys
are modelled as record fields). -/
structure Turn where
  role : String
  content : String
deriving DecidableEq

/-- Effect of `Conversation.addToHistory` (`conversation.go`) on the history
list, with `maxHistory` standing for `c.config.MaxHistory` (a positive Go
`int` in the claims' scope): empty content is not committed; otherwise the
turn is appended and, when the length exceeds the maximum, the slice keeps
only the last `maxHistory` entries. Logging is dropped. -/
def addToHistory (maxHistory : Nat) (h : List Turn) (role content : String) :
    List Turn :=
  if content = "" then h
  else
    let h2 := h ++ [⟨role, content⟩]
    if h2.length > maxHistory then h2.drop (h2.length - maxHistory) else h2

/-- Committing a sequence of turns, each through `addToHistory` (as the
`transcription`-final and `response` branches of `handleIncomingMessage`
do, in arrival order). -/
def commitTurns (maxHistory : Nat) (h : List Turn) (ts : List Turn) :
    List Turn :=
  ts.foldl (fun acc t => addToHistory maxHistory acc t.role t.content) h

/-- `Conversation.GetHistory` (`conversation.go`): returns a copy of the
history slice; on the value level this is the identity. -/
def GetHistory (h : List Turn) : List Turn :=
  h

/-- Streaming statistics (`types.go`, `StreamStats`). The wall-clock fields
`StartTime`/`EndTime` are omitted; durations are nanosecond counts (Go
`time.Duration` is an `int64` of nanoseconds); float fields are exact
rationals. -/
structure StreamStats where
  durationNs : Int
  totalSamples : Int
  totalBytes : Int
  averageAmplitude : ℚ
  maxAmplitude : ℚ
  minAmplitude : ℚ
  rmsAmplitude : ℚ
  silenceDurationNs : Int
  voiceActivityRatio : ℚ
  packetsSent : Int
  packetsLost : Int
  connectionDrops : Int
  reconnectCount : Int

/-- `StreamStats.IsHealthy` (`types.go`): `MaxAmplitude > 0.001 &&
VoiceActivityRatio > 0.1 && TotalSamples > 0`. -/
def IsHealthy (s : StreamStats) : Bool :=
  decide ((1 : ℚ) / 1000 < s.maxAmplitude) &&
    decide ((1 : ℚ) / 10 < s.voiceActivityRatio) &&
    decide (0 < s.totalSamples)

/-- `StreamStats.GetQualityScore` (`types.go`): 0 when unhealthy, else the
average of `min(VoiceActivityRatio*2, 1.0)` and
`min(AverageAmplitude*10, 1.0)` (arithmetic modelled exactly in `ℚ`). -/
def GetQualityScore (s : StreamStats) : ℚ :=
  if IsHealthy s then
    (min (s.voiceActivityRatio * 2) 1 + min (s.averageAmplitude * 10) 1) / 2
  else
    0

/-- Conversation configuration (`conversation.go`, `ConversationConfig`).
`ResponseTimeout` is nanoseconds; `InterruptThreshold` is a Go `float64`
modelled as `ℚ`. -/
structure ConversationConfig where
  prompt : String
  maxHistory : Int
  autoInterrupt : Bool
  interruptThreshold : ℚ
  language : String
  responseTimeoutNs : Int
  maxTextLength : Int
deriving DecidableEq

/-- `Conversation.SetInterruptThreshold` (`conversation.go`): a threshold
outside `[0, 1]` is replaced by `0.5` before being stored; no other config
field is touched. -/
def SetInterruptThreshold (cfg : ConversationConfig) (threshold : ℚ) :
    ConversationConfig :=
  let t := if threshold < 0 ∨ threshold > 1 then (1 : ℚ) / 2 else threshold
  { cfg with interruptThreshold := t }

/-- Playback-wait timeout of `AudioProcessor.playNextSegment`
(`audio_processor.go`), in nanoseconds, for a segment that decoded to
`numSamples` samples at `sampleRate` Hz. The source computes
`time.Duration(float64(len(samples))/float64(segment.SampleRate)*1.5) *
time.Second`: the conversion `time.Duration(x)` of the non-negative float
value truncates it to an integer (its floor), and the `* time.Second`
afterwards multiplies that integer by `10^9`. The float arithmetic is
modelled as exact rational arithmetic. -/
def playbackTimeoutNs (numSamples sampleRate : Nat) : Int :=
  Rat.floor ((numSamples : ℚ) / (sampleRate : ℚ) * (3 / 2)) * 1000000000

/-- The spec's playback-wait timeout, in nanoseconds: exactly 1.5 times the
segment's nominal duration `numSamples / sampleRate` seconds. -/
def specPlaybackTimeoutNs (numSamples sampleRate : Nat) : ℚ :=
  (numSamples : ℚ) / (sampleRate : ℚ) * (3 / 2) * 1000000000

/-- The comparison `&h == &handler` inside the deregistration closures
returned by `AddMessageHandler`, `AddConnectionHandler`, `AddErrorHandler`
(`websocket_client.go`) and `AddAudioDataHandler`, `AddErrorHandler`
(`audio_processor.go`). `h` is the per-iteration copy of a handler and
`handler` is the captured parameter: they are distinct variables of
non-zero size, so by the Go specification their addresses are always
distinct and the comparison is always false. -/
def addrEqGo {α : Type} (_h _handler : α) : Bool :=
  false

/-- Handler registration (`append(wsc.messageHandlers, handler)` and the
analogous lines of the other registration methods). -/
def addHandlerGo {α : Type} (handlers : List α) (handler : α) : List α :=
  handlers ++ [handler]

/-- The deregistration closure's loop (`websocket_client.go` lines 243-252
and its four clones): scan the handler slice, and at the first element
whose address equals the target's, delete it and break. The deletion
`append(hs[:i], hs[i+1:]...)` is removal at index `i`. -/
def removeHandlerGo {α : Type} (handlers : List α) (target : α) : List α :=
  match handlers with
  | [] => []
  | h :: rest =>
    if addrEqGo h target then rest else h :: removeHandlerGo rest target

/-- The standard base64 alphabet used by Go's
`base64.StdEncoding` (`encoding/base64`). -/
def b64chars : List Char :=
  String.toList
    ("ABCDEFGHIJKLMNOPQRSTUVWXYZabcdefghijklmnopqrstuvwxyz0123456789+/")

/-- Character for a six-bit group (`StdEncoding` alphabet lookup). -/
def encChar (s : Nat) : Char :=
  b64chars.getD s ('A')

/-- Inverse alphabet lookup used when decoding; `none` for characters
outside the alphabet (in particular for the padding character). -/
def decChar (c : Char) : Option Nat :=
  b64chars.findIdx? (fun x => x == c)

/-- `base64.StdEncoding.EncodeToString` (Go standard library, as called by
`EncodeAudioToBase64`): three input bytes become four alphabet characters;
a final one- or two-byte remainder is padded with `=`. Bytes are `Nat`
values below 256; `>>`/`&`/`|` on them are expressed through division and
remainder by powers of two. -/
def b64encode : List Nat → List Char
  | [] => []
  | [b0] =>
    [encChar (b0 / 4), encChar (b0 % 4 * 16), '=', '=']
  | [b0, b1] =>
    [encChar (b0 / 4), encChar (b0 % 4 * 16 + b1 / 16),
      encChar (b1 % 16 * 4), '=']
  | b0 :: b1 :: b2 :: rest =>
    encChar (b0 / 4) :: encChar (b0 % 4 * 16 + b1 / 16) ::
      encChar (b1 % 16 * 4 + b2 / 64) :: encChar (b2 % 64) ::
      b64encode rest

/-- `base64.StdEncoding.DecodeString` (Go standard library, as called by
`DecodeAudioFromBase64` and `HandleTTSAudio`): the input is consumed in
groups of four characters; `=` padding is only accepted at the very end, in
the patterns `xx==` (one byte) and `xxx=` (two bytes); any other shape or a
character outside the alphabet is an error (`none`). Like Go's non-strict
decoder, unused trailing bits of the final group are ignored. (Go
additionally skips `\r`/`\n`, which never occur in the inputs modelled
here.) -/
def b64decode : List Char → Option (List Nat)
  | [] => some []
  | c0 :: c1 :: c2 :: c3 :: rest =>
    match decChar c0, decChar c1 with
    | some s0, some s1 =>
      if c2 = '=' then
        if c3 = '=' ∧ rest = [] then some [s0 * 4 + s1 / 16] else none
      else
        match decChar c2 with
        | some s2 =>
          if c3 = '=' then
            if rest = [] then
              some [s0 * 4 + s1 / 16, s1 % 16 * 16 + s2 / 4]
            else none
          else
            match decChar c3 with
            | some s3 =>
              (b64decode rest).map fun bs =>
                (s0 * 4 + s1 / 16) :: (s1 % 16 * 16 + s2 / 4) ::
                  (s2 % 4 * 64 + s3) :: bs
            | none => none
        | none => none
    | _, _ => none
  | _ => none

/-- The byte serialization inside `EncodeAudioToBase64` (`utils.go`): each
sample's raw 32-bit representation (`math.Float32bits`) is written
little-endian, four bytes per sample. Samples are modelled by their bit
patterns (`Nat` below `2 ^ 32`). -/
def samplesToBytes : List Nat → List Nat
  | [] => []
  | b :: rest =>
    b % 256 :: b / 256 % 256 :: b / 65536 % 256 :: b / 16777216 % 256 ::
      samplesToBytes rest

/-- The byte deserialization inside `DecodeAudioFromBase64` (`utils.go`):
`len(data)/4` samples, each read as a little-endian `uint32`
(`binary.LittleEndian.Uint32`) and reinterpreted via
`math.Float32frombits`; up to three trailing bytes are ignored. -/
def bytesToSamples : List Nat → List Nat
  | b0 :: b1 :: b2 :: b3 :: rest =>
    (b0 + 256 * b1 + 65536 * b2 + 16777216 * b3) :: bytesToSamples rest
  | _ => []

/-- `EncodeAudioToBase64` (`utils.go`): little-endian byte packing of the
samples' raw 32-bit representations followed by standard base64. The
resulting Go string is modelled as its character list. -/
def EncodeAudioToBase64 (samples : List Nat) : List Char :=
  b64encode (samplesToBytes samples)

/-- `DecodeAudioFromBase64` (`utils.go`): base64-decode, then regroup the
bytes into little-endian 32-bit samples; a base64 error is propagated. -/
def DecodeAudioFromBase64 (encoded : List Char) : Option (List Nat) :=
  (b64decode encoded).map bytesToSamples

/-- A decoded JSON value held in a Go `interface{}` (as produced by
`encoding/json` into `WebSocketResponse.Data`): strings, numbers (Go
decodes JSON numbers as `float64`, modelled as `ℚ`), booleans, objects
(`map[string]interface{}`, modelled as an association list), arrays and
null. -/
inductive GoVal where
  | str (s : String)
  | num (x : ℚ)
  | boolean (b : Bool)
  | obj (fields : List (String × GoVal))
  | arr (elems : List GoVal)
  | nullv

/-- `getString` (`client.go`): look the key up in the data map; return the
value when it is present and is a string, and `""` otherwise (missing key
or non-string value). -/
def getString (data : List (String × GoVal)) (key : String) : String :=
  match data.lookup key with
  | some (GoVal.str s) => s
  | _ => ""

/-- `getInt` (`client.go`): a present `float64` value is converted with
Go's `int(...)`, which truncates toward zero; anything else yields 0. (The
source's `int` branch is unreachable for JSON-decoded data.) -/
def getInt (data : List (String × GoVal)) (key : String) : Int :=
  match data.lookup key with
  | some (GoVal.num x) => Int.tdiv x.num (x.den : Int)
  | _ => 0

/-- `getFloat64` (`client.go`): a present number is returned, anything else
yields 0. -/
def getFloat64 (data : List (String × GoVal)) (key : String) : ℚ :=
  match data.lookup key with
  | some (GoVal.num x) => x
  | _ => 0

/-- An inbound message (`types.go`, `WebSocketResponse`); the source field
`Type *string` is `msgType`. -/
structure WSResponse where
  event : String
  data : GoVal
  msgType : Option String

/-- The internal message handler installed by
`VocalsClient.setupInternalHandlers` (`client.go`), restricted to its
effect on the playback queue: for a `tts_audio` message whose `Data` is a
map, extract `segment_id` and `audio_data`, reject the message when either
is empty, and otherwise enqueue the assembled `TTSAudioSegment` through
`AddToQueue`. Every other message leaves the queue untouched. -/
def internalTTSHandler (msg : WSResponse) (queue : List TTSAudioSegment) :
    List TTSAudioSegment :=
  match msg.msgType with
  | some t =>
    if t = "tts_audio" then
      match msg.data with
      | GoVal.obj data =>
        let segmentID := getString data ("segment_id")
        let audioData := getString data ("audio_data")
        if segmentID = "" ∨ audioData = "" then queue
        else
          AddToQueue queue
            { text := getString data ("text")
              audioData := audioData
              sampleRate := getInt data ("sample_rate")
              segmentID := segmentID
              sentenceNumber := getInt data ("sentence_number")
              generationTimeMs := 0
              format := getString data ("format")
              durationSeconds := 0 }
      | _ => queue
    else queue
  | none => queue

/-- A buffered audio segment (`audio_handler.go`, `AudioBufferEntry`); the
`Timestamp` field (`time.Now()`) is wall-clock state and omitted;
`AudioData` is the decoded byte slice. -/
structure AudioBufferEntry where
  segmentID : String
  text : String
  audioData : List Nat
  sampleRate : Int
  format : String
  durationSeconds : ℚ
deriving DecidableEq

/-- The mutable state of an `AudioHandler` (`audio_handler.go`) relevant to
buffering: the entry buffer, the configured maximum size, and the running
totals. `outputDir`, `saveRawAudio` and `processFunc` drive file I/O and an
asynchronous callback, which do not affect this state. -/
structure AudioHandlerState where
  audioBuffer : List AudioBufferEntry
  maxBufferSize : Int
  totalAudioBytes : Int
  totalSegments : Int
deriving DecidableEq

/-- `AudioHandler.addToBuffer` (`audio_handler.go`): append the entry; then,
when `maxBufferSize > 0` and the buffer exceeds it, drop
`len(buffer) - maxBufferSize` oldest entries from the front. -/
def addToBuffer (st : AudioHandlerState) (entry : AudioBufferEntry) :
    AudioHandlerState :=
  let buf := st.audioBuffer ++ [entry]
  if 0 < st.maxBufferSize ∧ st.maxBufferSize < (buf.length : Int) then
    { st with audioBuffer := buf.drop (buf.length - st.maxBufferSize.toNat) }
  else
    { st with audioBuffer := buf }

/-- `AudioHandler.HandleTTSAudio` (`audio_handler.go`): validate the message
type, the map shape and the mandatory `segment_id` / `audio_data` fields;
base64-decode the payload; then buffer the entry and update the totals. The
result pairs Go's returned `error` (`Except.error` carrying the message)
with the handler state after the call; every error path returns before any
mutation, so it pairs the error with the unchanged state. Saving to disk
and the `processFunc` callback are I/O effects outside this state. -/
def HandleTTSAudio (msg : WSResponse) (st : AudioHandlerState) :
    Except String Unit × AudioHandlerState :=
  match msg.msgType with
  | none => (Except.error ("not a TTS audio message"), st)
  | some t =>
    if t ≠ "tts_audio" then (Except.error ("not a TTS audio message"), st)
    else
      match msg.data with
      | GoVal.obj data =>
        let segmentID := getString data ("segment_id")
        let text := getString data ("text")
        let audioDataB64 := getString data ("audio_data")
        let sampleRate := getInt data ("sample_rate")
        let format := getString data ("format")
        let duration := getFloat64 data ("duration_seconds")
        if segmentID = "" ∨ audioDataB64 = "" then
          (Except.error ("missing required fields"), st)
        else
          match b64decode audioDataB64.toList with
          | none => (Except.error ("failed to decode audio data"), st)
          | some audioBytes =>
            let entry : AudioBufferEntry :=
              { segmentID := segmentID
                text := text
                audioData := audioBytes
                sampleRate := sampleRate
                format := format
                durationSeconds := duration }
            let st2 := addToBuffer st entry
            (Except.ok (),
              { st2 with
                totalAudioBytes := st2.totalAudioBytes + audioBytes.length
                totalSegments := st2.totalSegments + 1 })
      | _ => (Except.error ("invalid TTS message format"), st)

/-- `WebSocketClient.connectWithRetry` (`websocket_client.go`) specialized
to a transport on which every `performConnection` call fails (the premise
of the reconnection-bound claim). The result is the number of
`performConnection` attempts made, the list of states set by `setState`
during the call in order, and whether an error was returned (`true` means a
non-nil error). Entered with the client in `Connecting` state:
`setState(ErrorState)` on exhaustion is a real transition and is recorded.
`time.Sleep` between attempts and the error fan-out are dropped. -/
def connectWithRetryAllFail (maxAttempts attempts : Nat) :
    Nat × List ConnectionState × Bool :=
  if _h : attempts < maxAttempts then
    if attempts + 1 ≥ maxAttempts then
      (1, [ConnectionState.ErrorState], true)
    else
      let o := connectWithRetryAllFail maxAttempts (attempts + 1)
      (o.1 + 1, o.2.1, o.2.2)
  else
    (0, [], true)
termination_by maxAttempts - attempts

/-- `WebSocketClient.Connect` (`websocket_client.go`) under the same
always-failing transport: from a state that is neither `Connected` nor
`Connecting`, it sets `Connecting` (recorded, as the previous state
differs), resets the attempt counter to 0 and runs `connectWithRetry`;
otherwise it returns the `already connected or connecting` error having
made no attempt and no transition. -/
def ConnectAllFail (maxAttempts : Nat) (s0 : ConnectionState) :
    Nat × List ConnectionState × Bool :=
  if s0 = ConnectionState.Connected ∨ s0 = ConnectionState.Connecting then
    (0, [], true)
  else
    let o := connectWithRetryAllFail maxAttempts 0
    (o.1, ConnectionState.Connecting :: o.2.1, o.2.2)

theorem takeLast_length {α : Type} (n : Nat) (xs : List α) :
    (takeLast n xs).length = min n xs.length := by
  simp [takeLast]
  omega

theorem takeLast_cons {α : Type} (m : Nat) (x : α) (xs : List α) :
    takeLast m (x :: xs) =
      if xs.length + 1 ≤ m then x :: xs else takeLast m xs := by
  by_cases h : xs.length + 1 ≤ m
  · have h0 : (x :: xs).length - m = 0 := by simp; omega
    simp [takeLast, h0, h]
  · have h1 : xs.length + 1 - m = (xs.length - m) + 1 := by omega
    simp [takeLast, h]
    rw [h1, List.drop_succ_cons]

theorem takeLast_absorb {α : Type} (m : Nat) (xs ys : List α) :
    takeLast m (takeLast m xs ++ ys) = takeLast m (xs ++ ys) := by
  induction xs with
  | nil => simp [takeLast]
  | cons x xs ih =>
    rw [takeLast_cons]
    by_cases h : xs.length + 1 ≤ m
    · simp [h]
    · have h2 : ¬ (xs ++ ys).length + 1 ≤ m := by simp; omega
      rw [if_neg h, ih, List.cons_append, takeLast_cons, if_neg h2]

theorem addToHistory_eq_takeLast (maxHistory : Nat) (h : List Turn)
    (role content : String) (hc : content ≠ "") :
    addToHistory maxHistory h role content =
      takeLast maxHistory (h ++ [⟨role, content⟩]) := by
  have key : ∀ l : List Turn,
      (if l.length > maxHistory then l.drop (l.length - maxHistory)
        else l) = takeLast maxHistory l := by
    intro l
    by_cases hl : l.length > maxHistory
    · rw [if_pos hl]; rfl
    · rw [if_neg hl, takeLast]
      have h0 : l.length - maxHistory = 0 := by omega
      rw [h0, List.drop_zero]
  simp only [addToHistory, if_neg hc]
  exact key _

theorem commitTurns_eq_takeLast (maxHistory : Nat) (ts : List Turn) :
    ∀ h : List Turn, h.length ≤ maxHistory →
      (∀ t ∈ ts, t.content ≠ "") →
      commitTurns maxHistory h ts = takeLast maxHistory (h ++ ts) := by
  induction ts with
  | nil =>
    intro h hh _
    have h0 : h.length - maxHistory = 0 := by omega
    simp [commitTurns, takeLast, h0]
  | cons t ts ih =>
    intro h hh hc
    have ht : t.content ≠ "" := hc t (by simp)
    have hrest : ∀ u ∈ ts, u.content ≠ "" := fun u hu => hc u (by simp [hu])
    show commitTurns maxHistory (addToHistory maxHistory h t.role t.content)
        ts = _
    rw [addToHistory_eq_takeLast maxHistory h t.role t.content ht]
    have hlen : (takeLast maxHistory (h ++ [⟨t.role, t.content⟩])).length ≤
        maxHistory := by
      rw [takeLast_length]; omega
    rw [ih _ hlen hrest, takeLast_absorb]
    simp

/-- C6: with a configured maximum history size `M ≥ 1`, committing more
than `M` turns (each with non-empty content, as the code silently refuses
to commit empty content) leaves `GetHistory` returning exactly the last `M`
committed turns, in commit order: the oldest turns are the evicted ones. -/
theorem history_eviction_fifo (M : Nat) (ts : List Turn) (_h1 : 1 ≤ M)
    (h2 : M < ts.length) (h3 : ∀ t ∈ ts, t.content ≠ "") :
    GetHistory (commitTurns M [] ts) = takeLast M ts ∧
      (GetHistory (commitTurns M [] ts)).length = M := by
  have he : commitTurns M [] ts = takeLast M ts := by
    have := commitTurns_eq_takeLast M ts [] (by simp) h3
    simpa using this
  refine ⟨by simpa [GetHistory] using he, ?_⟩
  rw [GetHistory, he, takeLast_length]
  omega

theorem history_eviction_fifo_witness :
    1 ≤ 2 ∧ 2 < 3 ∧
      (∀ t ∈ [Turn.mk ("user") ("a"), Turn.mk ("assistant") ("b"),
        Turn.mk ("user") ("c")], t.content ≠ "") ∧
      GetHistory (commitTurns 2 []
          [Turn.mk ("user") ("a"), Turn.mk ("assistant") ("b"),
            Turn.mk ("user") ("c")]) =
        takeLast 2
          [Turn.mk ("user") ("a"), Turn.mk ("assistant") ("b"),
            Turn.mk ("user") ("c")] ∧
      (GetHistory (commitTurns 2 []
          [Turn.mk ("user") ("a"), Turn.mk ("assistant") ("b"),
            Turn.mk ("user") ("c")])).length = 2 := by
  refine ⟨by decide, by decide, by decide, ?_⟩
  exact history_eviction_fifo 2
    [Turn.mk ("user") ("a"), Turn.mk ("assistant") ("b"),
      Turn.mk ("user") ("c")] (by decide) (by decide) (by decide)

/-- C2: enqueueing a segment whose `(SegmentID, SentenceNumber)` identity
is already present in the playback queue leaves the queue unchanged; in
particular, two `AddToQueue` calls with the same identity starting from the
empty queue yield the one-element queue holding the first call's segment
(and hence its audio payload). -/
theorem addToQueue_duplicate_noop (q : List TTSAudioSegment)
    (s t : TTSAudioSegment)
    (hq : ∃ u ∈ q, u.segmentID = s.segmentID ∧
      u.sentenceNumber = s.sentenceNumber)
    (hts : t.segmentID = s.segmentID ∧
      t.sentenceNumber = s.sentenceNumber) :
    AddToQueue q s = q ∧ AddToQueue (AddToQueue [] s) t = [s] := by
  constructor
  · rw [AddToQueue, if_pos]
    rw [List.any_eq_true]
    obtain ⟨u, hu, h1, h2⟩ := hq
    exact ⟨u, hu, by simp [h1, h2]⟩
  · have h0 : AddToQueue [] s = [s] := by simp [AddToQueue]
    rw [h0, AddToQueue, if_pos]
    rw [List.any_eq_true]
    exact ⟨s, by simp, by simp [hts.1, hts.2]⟩

theorem addToQueue_duplicate_noop_witness :
    (∃ u ∈ [TTSAudioSegment.mk ("hi") ("QUJD") 24000 ("seg-1") 1 0
        ("pcm_f32le") 0],
      u.segmentID = (TTSAudioSegment.mk ("hi") ("QUJD") 24000 ("seg-1") 1 0
        ("pcm_f32le") 0).segmentID ∧
      u.sentenceNumber = (TTSAudioSegment.mk ("hi") ("QUJD") 24000
        ("seg-1") 1 0 ("pcm_f32le") 0).sentenceNumber) ∧
    AddToQueue [TTSAudioSegment.mk ("hi") ("QUJD") 24000 ("seg-1") 1 0
        ("pcm_f32le") 0]
      (TTSAudioSegment.mk ("hi") ("QUJD") 24000 ("seg-1") 1 0
        ("pcm_f32le") 0) =
      [TTSAudioSegment.mk ("hi") ("QUJD") 24000 ("seg-1") 1 0
        ("pcm_f32le") 0] ∧
    AddToQueue (AddToQueue []
        (TTSAudioSegment.mk ("hi") ("QUJD") 24000 ("seg-1") 1 0
          ("pcm_f32le") 0))
      (TTSAudioSegment.mk ("other") ("WFla") 16000 ("seg-1") 1 0
        ("pcm_f32le") 0) =
      [TTSAudioSegment.mk ("hi") ("QUJD") 24000 ("seg-1") 1 0
        ("pcm_f32le") 0] := by
  refine ⟨by decide, ?_, ?_⟩
  · exact (addToQueue_duplicate_noop _ _
      (TTSAudioSegment.mk ("other") ("WFla") 16000 ("seg-1") 1 0
        ("pcm_f32le") 0) (by decide) (by decide)).1
  · exact (addToQueue_duplicate_noop
      [TTSAudioSegment.mk ("hi") ("QUJD") 24000 ("seg-1") 1 0
        ("pcm_f32le") 0] _ _ (by decide) (by decide)).2

/-- C7: `GetQualityScore` is 0 exactly on the unhealthy side of
`IsHealthy`, which holds precisely when `MaxAmplitude > 0.001`,
`VoiceActivityRatio > 0.1` and `TotalSamples > 0`; on the healthy side the
score is the average of `min(2 * VoiceActivityRatio, 1)` and
`min(10 * AverageAmplitude, 1)`. -/
theorem qualityScore_characterization (s : StreamStats) :
    (IsHealthy s = true ↔
      ((1 : ℚ) / 1000 < s.maxAmplitude ∧
        (1 : ℚ) / 10 < s.voiceActivityRatio ∧ 0 < s.totalSamples)) ∧
    GetQualityScore s =
      (if IsHealthy s then
        (min (2 * s.voiceActivityRatio) 1 +
          min (10 * s.averageAmplitude) 1) / 2
      else 0) := by
  constructor
  · simp [IsHealthy, Bool.and_eq_true, decide_eq_true_eq, and_assoc]
  · by_cases h : IsHealthy s = true
    · simp only [GetQualityScore, h, if_true, if_pos]
      ring_nf
    · simp only [GetQualityScore, h]
      simp [h]

/-- C9: `SetInterruptThreshold t` stores `t` when `0 ≤ t ≤ 1` and `0.5`
otherwise, and leaves every other configuration field unchanged. -/
theorem setInterruptThreshold_clamps (cfg : ConversationConfig) (t : ℚ) :
    (SetInterruptThreshold cfg t).interruptThreshold =
      (if 0 ≤ t ∧ t ≤ 1 then t else (1 : ℚ) / 2) ∧
    (SetInterruptThreshold cfg t).prompt = cfg.prompt ∧
    (SetInterruptThreshold cfg t).maxHistory = cfg.maxHistory ∧
    (SetInterruptThreshold cfg t).autoInterrupt = cfg.autoInterrupt ∧
    (SetInterruptThreshold cfg t).language = cfg.language ∧
    (SetInterruptThreshold cfg t).responseTimeoutNs =
      cfg.responseTimeoutNs ∧
    (SetInterruptThreshold cfg t).maxTextLength = cfg.maxTextLength := by
  refine ⟨?_, rfl, rfl, rfl, rfl, rfl, rfl⟩
  show (if t < 0 ∨ t > 1 then (1 : ℚ) / 2 else t) = _
  by_cases h : 0 ≤ t ∧ t ≤ 1
  · rw [if_pos h, if_neg]
    push_neg
    exact h
  · rw [if_neg h, if_pos]
    by_contra hn
    push_neg at hn
    exact h ⟨hn.1, hn.2⟩

/-- C4 (failing input): for a segment that decodes to 1024 samples at
24000 Hz, the wait in `playNextSegment` uses a timeout of 0 nanoseconds —
`time.Duration(float64(1024)/float64(24000)*1.5)` truncates the 0.064-
second float value to the integer 0 before `* time.Second` — while the
claimed timeout of 1.5 times the nominal duration is 64 ms
(64000000 ns). -/
theorem playbackTimeout_truncation_bug :
    playbackTimeoutNs 1024 24000 = 0 ∧
      specPlaybackTimeoutNs 1024 24000 = 64000000 ∧
      (0 : ℚ) ≠ 64000000 := by
  have hfq : ∀ q : ℚ, Rat.floor q = ⌊q⌋ := fun q => by
    rw [Rat.floor_def', Rat.floor_def]
  refine ⟨?_, ?_, by norm_num⟩
  · show Rat.floor ((1024 : ℚ) / (24000 : ℚ) * (3 / 2)) * 1000000000 = 0
    have hq : (1024 : ℚ) / (24000 : ℚ) * (3 / 2) =
        ((8 : ℤ) : ℚ) / ((125 : ℕ) : ℚ) := by norm_num
    rw [hq, hfq, Rat.floor_intCast_div_natCast]
    decide
  · show (1024 : ℚ) / (24000 : ℚ) * (3 / 2) * 1000000000 = 64000000
    norm_num

/-- C5 (code bug): the deregistration closures returned by the handler
registration methods never remove anything — the address comparison
`&h == &handler` they scan with is always false — so a handler registered
with `addHandlerGo` is still in the subscriber list after its
deregistration function runs, and the list is unchanged for every target.
-/
theorem deregistration_never_removes {α : Type} (handlers : List α)
    (target : α) :
    removeHandlerGo (addHandlerGo handlers target) target =
        addHandlerGo handlers target ∧
      removeHandlerGo handlers target = handlers := by
  have key : ∀ hs : List α, removeHandlerGo hs target = hs := by
    intro hs
    induction hs with
    | nil => rfl
    | cons h rest ih => simp [removeHandlerGo, addrEqGo, ih]
  exact ⟨key _, key _⟩

theorem handleTTSAudio_buffer_cases (msg : WSResponse)
    (st : AudioHandlerState) :
    (HandleTTSAudio msg st).2.audioBuffer = st.audioBuffer ∨
      ∃ e, (HandleTTSAudio msg st).2.audioBuffer =
        (addToBuffer st e).audioBuffer := by
  unfold HandleTTSAudio
  split
  · exact Or.inl rfl
  · split
    · exact Or.inl rfl
    · split
      · dsimp only
        split
        · exact Or.inl rfl
        · split
          · exact Or.inl rfl
          · exact Or.inr ⟨_, rfl⟩
      · exact Or.inl rfl

/-- C10: with a positive `maxBufferSize`, `addToBuffer` keeps exactly the
most recent `maxBufferSize` entries of the buffer extended by the new entry
(so overflow evicts the oldest entries and the survivors keep their arrival
order), and consequently every `HandleTTSAudio` call preserves the
invariant that the buffer holds at most `maxBufferSize` entries. -/
theorem audioBuffer_bounded_fifo :
    (∀ (st : AudioHandlerState) (e : AudioBufferEntry) (m : Nat),
      st.maxBufferSize = (m : Int) → 0 < m →
      (addToBuffer st e).audioBuffer =
        takeLast m (st.audioBuffer ++ [e])) ∧
    (∀ (msg : WSResponse) (st : AudioHandlerState) (m : Nat),
      st.maxBufferSize = (m : Int) → 0 < m →
      st.audioBuffer.length ≤ m →
      (HandleTTSAudio msg st).2.audioBuffer.length ≤ m) := by
  have hadd : ∀ (st : AudioHandlerState) (e : AudioBufferEntry) (m : Nat),
      st.maxBufferSize = (m : Int) → 0 < m →
      (addToBuffer st e).audioBuffer =
        takeLast m (st.audioBuffer ++ [e]) := by
    intro st e m hm hpos
    simp only [addToBuffer]
    by_cases hlen : 0 < st.maxBufferSize ∧
        st.maxBufferSize < ((st.audioBuffer ++ [e]).length : Int)
    · rw [if_pos hlen]
      show (st.audioBuffer ++ [e]).drop
          ((st.audioBuffer ++ [e]).length - st.maxBufferSize.toNat) =
        takeLast m (st.audioBuffer ++ [e])
      rw [takeLast, hm]
      simp
    · rw [if_neg hlen]
      show st.audioBuffer ++ [e] = takeLast m (st.audioBuffer ++ [e])
      rw [takeLast]
      have hle : (st.audioBuffer ++ [e]).length ≤ m := by
        rw [hm] at hlen
        by_contra hc
        push_neg at hc
        exact hlen ⟨by exact_mod_cast hpos, by exact_mod_cast hc⟩
      rw [Nat.sub_eq_zero_of_le hle, List.drop_zero]
  refine ⟨hadd, ?_⟩
  intro msg st m hm hpos hinv
  rcases handleTTSAudio_buffer_cases msg st with hcase | ⟨e, hcase⟩
  · rw [hcase]; exact hinv
  · rw [hcase, hadd st e m hm hpos, takeLast_length]
    exact Nat.min_le_left _ _

theorem audioBuffer_bounded_fifo_witness :
    ((AudioHandlerState.mk
        [AudioBufferEntry.mk ("s1") ("") [] 0 ("") 0,
          AudioBufferEntry.mk ("s2") ("") [] 0 ("") 0] 2 0 0).maxBufferSize =
      ((2 : Nat) : Int)) ∧ 0 < 2 ∧
    (addToBuffer
        (AudioHandlerState.mk
          [AudioBufferEntry.mk ("s1") ("") [] 0 ("") 0,
            AudioBufferEntry.mk ("s2") ("") [] 0 ("") 0] 2 0 0)
        (AudioBufferEntry.mk ("s3") ("") [] 0 ("") 0)).audioBuffer =
      takeLast 2
        ([AudioBufferEntry.mk ("s1") ("") [] 0 ("") 0,
          AudioBufferEntry.mk ("s2") ("") [] 0 ("") 0] ++
          [AudioBufferEntry.mk ("s3") ("") [] 0 ("") 0]) := by
  refine ⟨rfl, by decide, ?_⟩
  exact audioBuffer_bounded_fifo.1
    (AudioHandlerState.mk
      [AudioBufferEntry.mk ("s1") ("") [] 0 ("") 0,
        AudioBufferEntry.mk ("s2") ("") [] 0 ("") 0] 2 0 0)
    (AudioBufferEntry.mk ("s3") ("") [] 0 ("") 0) 2 rfl (by decide)

/-- C8: a `tts_audio` message whose `segment_id` or `audio_data` field is
empty or missing (both read through `getString`, which also yields `""`
for a missing key or a non-string value) is rejected: the client's internal
handler leaves the playback queue unchanged, and `HandleTTSAudio` returns
the `missing required fields` error with the handler state (in particular
the audio buffer) unchanged. -/
theorem ttsAudio_missing_fields_rejected (msg : WSResponse)
    (st : AudioHandlerState) (q : List TTSAudioSegment)
    (d : List (String × GoVal))
    (ht : msg.msgType = some ("tts_audio"))
    (hd : msg.data = GoVal.obj d)
    (hmiss : getString d ("segment_id") = "" ∨
      getString d ("audio_data") = "") :
    internalTTSHandler msg q = q ∧
    (HandleTTSAudio msg st).1 =
      Except.error ("missing required fields") ∧
    (HandleTTSAudio msg st).2 = st := by
  rcases hmiss with hm1 | hm1 <;>
    simp [internalTTSHandler, HandleTTSAudio, ht, hd, hm1]

theorem ttsAudio_missing_fields_rejected_witness :
    ((WSResponse.mk ("")
        (GoVal.obj [(("segment_id"), GoVal.str ("seg-1"))])
        (some ("tts_audio"))).msgType = some ("tts_audio")) ∧
    ((WSResponse.mk ("")
        (GoVal.obj [(("segment_id"), GoVal.str ("seg-1"))])
        (some ("tts_audio"))).data =
      GoVal.obj [(("segment_id"), GoVal.str ("seg-1"))]) ∧
    (getString [(("segment_id"), GoVal.str ("seg-1"))] ("segment_id") = "" ∨
      getString [(("segment_id"), GoVal.str ("seg-1"))] ("audio_data") =
        "") ∧
    internalTTSHandler
        (WSResponse.mk ("")
          (GoVal.obj [(("segment_id"), GoVal.str ("seg-1"))])
          (some ("tts_audio"))) [] = [] ∧
    (HandleTTSAudio
        (WSResponse.mk ("")
          (GoVal.obj [(("segment_id"), GoVal.str ("seg-1"))])
          (some ("tts_audio"))) (AudioHandlerState.mk [] 10 0 0)).1 =
      Except.error ("missing required fields") ∧
    (HandleTTSAudio
        (WSResponse.mk ("")
          (GoVal.obj [(("segment_id"), GoVal.str ("seg-1"))])
          (some ("tts_audio"))) (AudioHandlerState.mk [] 10 0 0)).2 =
      AudioHandlerState.mk [] 10 0 0 := by
  have hmiss : getString [(("segment_id"), GoVal.str ("seg-1"))]
        ("segment_id") = "" ∨
      getString [(("segment_id"), GoVal.str ("seg-1"))] ("audio_data") =
        "" := Or.inr (by decide)
  have h := ttsAudio_missing_fields_rejected
    (WSResponse.mk ("") (GoVal.obj [(("segment_id"), GoVal.str ("seg-1"))])
      (some ("tts_audio"))) (AudioHandlerState.mk [] 10 0 0) []
    [(("segment_id"), GoVal.str ("seg-1"))] rfl rfl hmiss
  exact ⟨rfl, rfl, hmiss, h.1, h.2.1, h.2.2⟩

theorem connectWithRetryAllFail_spec :
    ∀ (d a : Nat), connectWithRetryAllFail (a + d + 1) a =
      (d + 1, [ConnectionState.ErrorState], true) := by
  intro d
  induction d with
  | zero =>
    intro a
    unfold connectWithRetryAllFail
    rw [dif_pos (by omega), if_pos (by omega)]
  | succ n ih =>
    intro a
    unfold connectWithRetryAllFail
    rw [dif_pos (by omega), if_neg (by omega)]
    have harith : a + (n + 1) + 1 = (a + 1) + n + 1 := by omega
    rw [harith, ih (a + 1)]

/-- C1: with `MaxReconnectAttempts = N ≥ 1` and a transport on which every
connection attempt fails, `Connect` from the `Disconnected` state performs
exactly `N` attempts, returns an error, and the states it moves through are
`Connecting` followed by `ErrorState` — so the call ends in the error state
and the state is never `Connected` at any point during the call. -/
theorem connect_allFail_bound (N : Nat) (hN : 1 ≤ N) :
    ConnectAllFail N ConnectionState.Disconnected =
      (N, [ConnectionState.Connecting, ConnectionState.ErrorState],
        true) ∧
    ConnectionState.Connected ∉
      ConnectionState.Disconnected ::
        (ConnectAllFail N ConnectionState.Disconnected).2.1 := by
  have h0 : ConnectAllFail N ConnectionState.Disconnected =
      (N, [ConnectionState.Connecting, ConnectionState.ErrorState],
        true) := by
    unfold ConnectAllFail
    rw [if_neg (by simp)]
    have hr := connectWithRetryAllFail_spec (N - 1) 0
    have hN' : 0 + (N - 1) + 1 = N := by omega
    rw [hN'] at hr
    rw [hr, show N - 1 + 1 = N from by omega]
  refine ⟨h0, ?_⟩
  rw [h0]
  show ConnectionState.Connected ∉
    [ConnectionState.Disconnected, ConnectionState.Connecting,
      ConnectionState.ErrorState]
  decide

theorem connect_allFail_bound_witness :
    1 ≤ 3 ∧
      (ConnectAllFail 3 ConnectionState.Disconnected =
        (3, [ConnectionState.Connecting, ConnectionState.ErrorState],
          true) ∧
      ConnectionState.Connected ∉
        ConnectionState.Disconnected ::
          (ConnectAllFail 3 ConnectionState.Disconnected).2.1) :=
  ⟨by decide, connect_allFail_bound 3 (by decide)⟩

theorem decChar_encChar : ∀ s : Nat, s < 64 → decChar (encChar s) = some s := by
  decide

theorem encChar_ne_pad : ∀ s : Nat, s < 64 → ¬ encChar s = '=' := by
  decide

theorem samplesToBytes_lt (ss : List Nat) :
    ∀ b ∈ samplesToBytes ss, b < 256 := by
  induction ss with
  | nil => simp [samplesToBytes]
  | cons s rest ih =>
    simp only [samplesToBytes, List.mem_cons]
    rintro b (rfl | rfl | rfl | rfl | hb)
    · omega
    · omega
    · omega
    · omega
    · exact ih b hb

theorem b64_roundtrip : ∀ (bs : List Nat), (∀ b ∈ bs, b < 256) →
    b64decode (b64encode bs) = some bs
  | [], _ => rfl
  | [b0], h => by
    have hb0 : b0 < 256 := h b0 (by simp)
    simp only [b64encode, b64decode]
    rw [decChar_encChar (b0 / 4) (by omega),
      decChar_encChar (b0 % 4 * 16) (by omega)]
    simp
    omega
  | [b0, b1], h => by
    have hb0 : b0 < 256 := h b0 (by simp)
    have hb1 : b1 < 256 := h b1 (by simp)
    simp only [b64encode, b64decode]
    rw [decChar_encChar (b0 / 4) (by omega),
      decChar_encChar (b0 % 4 * 16 + b1 / 16) (by omega)]
    dsimp only
    rw [if_neg (encChar_ne_pad (b1 % 16 * 4) (by omega))]
    rw [decChar_encChar (b1 % 16 * 4) (by omega)]
    dsimp only
    simp
    omega
  | b0 :: b1 :: b2 :: rest, h => by
    have hb0 : b0 < 256 := h b0 (by simp)
    have hb1 : b1 < 256 := h b1 (by simp)
    have hb2 : b2 < 256 := h b2 (by simp)
    have ih := b64_roundtrip rest (fun b hb => h b (by simp [hb]))
    simp only [b64encode, b64decode]
    rw [decChar_encChar (b0 / 4) (by omega),
      decChar_encChar (b0 % 4 * 16 + b1 / 16) (by omega)]
    dsimp only
    rw [if_neg (encChar_ne_pad (b1 % 16 * 4 + b2 / 64) (by omega))]
    rw [decChar_encChar (b1 % 16 * 4 + b2 / 64) (by omega)]
    dsimp only
    rw [if_neg (encChar_ne_pad (b2 % 64) (by omega))]
    rw [decChar_encChar (b2 % 64) (by omega)]
    dsimp only
    rw [ih]
    simp
    omega

theorem bytesToSamples_samplesToBytes (ss : List Nat)
    (h : ∀ b ∈ ss, b < 4294967296) :
    bytesToSamples (samplesToBytes ss) = ss := by
  induction ss with
  | nil => rfl
  | cons s rest ih =>
    have hs : s < 4294967296 := h s (by simp)
    simp only [samplesToBytes, bytesToSamples]
    rw [ih (fun b hb => h b (by simp [hb]))]
    congr 1
    omega

/-- C3: for every sample sequence (each sample given by its raw 32-bit
representation, which is how the codec handles it — non-finite float values
included), decoding the base64 encoding returns the original sequence
bit-for-bit. -/
theorem encodeDecode_roundtrip (samples : List Nat)
    (h : ∀ b ∈ samples, b < 4294967296) :
    DecodeAudioFromBase64 (EncodeAudioToBase64 samples) = some samples := by
  rw [DecodeAudioFromBase64, EncodeAudioToBase64,
    b64_roundtrip (samplesToBytes samples) (samplesToBytes_lt samples)]
  simp [bytesToSamples_samplesToBytes samples h]

theorem encodeDecode_roundtrip_witness :
    (∀ b ∈ [0, 1065353216, 2143289344], b < 4294967296) ∧
      DecodeAudioFromBase64
          (EncodeAudioToBase64 [0, 1065353216, 2143289344]) =
        some [0, 1065353216, 2143289344] :=
  ⟨by decide,
    encodeDecode_roundtrip [0, 1065353216, 2143289344] (by decide)⟩

end VocalsSDK
